import Mathlib

/-!
# Verification of the aider-resolver core

A shallow embedding of the aider-resolver TypeScript sources and proofs about
them.  The embedding covers:

* the complexity classifier, model selector, subprocess runner and output
  scanners of `AiderOrchestrator` (aider-orchestrator module);
* the cost estimator and the orchestration entry of `AiderResolver` (index
  resolver module);
* the priority extractor and permission check of `GitHubContextParser`
  (`src/github-parser.ts`);
* the progress-document renderer of `GitHubReporter` (github-reporter module).

JavaScript strings are modelled as Lean `String` / `List Char`; the relevant
string primitives (`includes`, `toLowerCase`, `split`, `trim`, and the two
regexes used by the output scanners) are defined below with JavaScript
semantics.  JavaScript numbers are modelled as `ℚ` (all arithmetic in the
sources is exact at the modelled granularity).  The subprocess of
`executeAiderCommand` is modelled by an explicit `ExecOutcome` value: the
`close` event with its exit code and buffered streams, the `error` event
(spawn failure), or the 30-minute timeout firing first.  Wall-clock readings
(`Date.now()`) are abstracted as an `elapsed` parameter.
-/

/-! ## String primitives with JavaScript semantics -/

/-- Boolean infix test on character lists: true when `pat` occurs contiguously
in the scanned list.  Models JavaScript `String.prototype.includes`. -/
def infixOf (pat : List Char) : List Char → Bool
  | [] => pat.isEmpty
  | c :: cs => pat.isPrefixOf (c :: cs) || infixOf pat cs

/-- JavaScript `s.includes(pat)`. -/
def includesB (s pat : String) : Bool := infixOf pat.toList s.toList

/-- JavaScript `toLowerCase` (ASCII range, which covers every keyword and
input in the sources). -/
def lowerStr (s : String) : String := String.mk (s.toList.map Char.toLower)

/-- JavaScript `split(sep)` for a single-character separator. -/
def splitOnChar (sep : Char) : List Char → List (List Char)
  | [] => [[]]
  | c :: cs =>
    match splitOnChar sep cs with
    | [] => [[]]
    | l :: ls => if c == sep then [] :: l :: ls else (c :: l) :: ls

/-- JavaScript `trim`: whitespace stripped from both ends. -/
def trimChars (cs : List Char) : List Char :=
  ((cs.dropWhile Char.isWhitespace).reverse.dropWhile Char.isWhitespace).reverse

/-- The character class `[a-f0-9]` under the regex `i` flag. -/
def isHexDigitCI (c : Char) : Bool :=
  c.isDigit || decide ('a' ≤ c ∧ c ≤ 'f') || decide ('A' ≤ c ∧ c ≤ 'F')

/-- Case-insensitive literal match at the front of `s` (regex `i` flag on a
literal given in lower case). -/
def ciPrefix (pat : List Char) (s : List Char) : Bool :=
  pat.isPrefixOf ((s.take pat.length).map Char.toLower)

/-- Left fold concatenating rendered pieces; the functional reading of the
`markdown += ...` accumulation loops in the reporter. -/
def concatMap (l : List α) (f : α → String) : String :=
  l.foldl (fun acc x => acc ++ f x) ""

/-! ## Data model (`src/types.ts`) -/

/-- `TaskComplexity` from `src/types.ts`. -/
inductive TaskComplexity
  | simple
  | medium
  | complex
deriving DecidableEq, Repr

/-- The priority levels of `AgentInstruction.priority`. -/
inductive Priority
  | low
  | medium
  | high
deriving DecidableEq, Repr

/-- `ModelConfig.provider` from `src/types.ts`. -/
inductive Provider
  | openai
  | anthropic
  | deepseek
deriving DecidableEq, Repr

/-- `ModelConfig` from `src/types.ts`. -/
structure ModelConfig where
  name : String
  provider : Provider
  apiKey : String
  costPerToken : ℚ
  maxTokens : ℕ
  complexity : TaskComplexity
deriving DecidableEq, Repr

/-- `AgentInstruction` from `src/types.ts`; the optional fields are `Option`. -/
structure AgentInstruction where
  trigger : String
  instruction : String
  files : Option (List String)
  model : Option String
  priority : Option Priority
deriving DecidableEq, Repr

/-- The parts of `AiderContext` consumed by the orchestrator. -/
structure AiderContext where
  instruction : String
  files : List String
  workingDirectory : String
deriving DecidableEq, Repr

/-- `AiderResult` from `src/types.ts` (the ExecutionResult of the spec). -/
structure AiderResult where
  success : Bool
  filesChanged : List String
  commitSha : Option String
  errorMessage : Option String
  output : String
  costUsed : ℚ
  modelUsed : String
  executionTime : ℚ
deriving DecidableEq, Repr

/-- The status values of `ProgressUpdate.status`. -/
inductive ProgressStatus
  | pending
  | in_progress
  | completed
  | failed
deriving DecidableEq, Repr

/-- `ProgressUpdate` from `src/types.ts`. -/
structure ProgressUpdate where
  step : String
  status : ProgressStatus
  message : Option String := none
  progress : Option ℚ := none
deriving DecidableEq, Repr

/-! ## `GitHubContextParser` (`src/github-parser.ts`) -/

/-- `lowPriorityWords` of `GitHubContextParser.extractPriority`. -/
def lowPriorityWords : List String := ["low", "minor", "simple"]

/-- `highPriorityWords` of `GitHubContextParser.extractPriority`. -/
def highPriorityWords : List String := ["high", "urgent", "critical", "important"]

/-- `GitHubContextParser.extractPriority`: scans the lower-cased full text;
high-priority keywords are checked before low-priority ones; `medium` is the
default. -/
def extractPriority (text : String) : Priority :=
  let lowerText := lowerStr text
  if highPriorityWords.any (fun word => includesB lowerText word) then .high
  else if lowPriorityWords.any (fun word => includesB lowerText word) then .low
  else .medium

/-- `GitHubContextParser.validatePermissions`: a missing (`none`) or empty
allowed-users list admits everyone; otherwise membership decides. -/
def validatePermissions (user : String) (allowedUsers : Option (List String)) : Bool :=
  match allowedUsers with
  | none => true
  | some users => if users.length == 0 then true else users.contains user

/-! ## `AiderOrchestrator` (aider-orchestrator module) -/

/-- `complexKeywords` of `AiderOrchestrator.analyzeTaskComplexity`. -/
def complexKeywords : List String :=
  ["architecture", "refactor", "redesign", "framework", "database",
   "security", "performance", "algorithm", "complex", "integration"]

/-- `simpleKeywords` of `AiderOrchestrator.analyzeTaskComplexity`. -/
def simpleKeywords : List String :=
  ["fix typo", "format", "lint", "comment", "rename", "simple",
   "update", "change text", "add line", "remove line"]

/-- `AiderOrchestrator.analyzeTaskComplexity`: complex keywords first, then
simple keywords, then the length heuristic.  JavaScript `String.length`
(UTF-16 units) is modelled as character count, which agrees on the ASCII
inputs considered here. -/
def analyzeTaskComplexity (instruction : String) : TaskComplexity :=
  let lowerInstruction := lowerStr instruction
  if complexKeywords.any (fun keyword => includesB lowerInstruction keyword) then .complex
  else if simpleKeywords.any (fun keyword => includesB lowerInstruction keyword) then .simple
  else if instruction.toList.length > 500 then .complex
  else if instruction.toList.length < 100 then .simple
  else .medium

/-- The `modelPreferences` table of `AiderOrchestrator.selectOptimalModel`. -/
def modelPreferences : TaskComplexity → List String
  | .simple => ["deepseek", "claude-haiku", "gpt-3.5-turbo"]
  | .medium => ["claude-sonnet", "gpt-4", "deepseek"]
  | .complex => ["claude-sonnet", "gpt-4", "o1-preview"]

/-- JavaScript object key lookup `this.modelConfigs[name]` over the
insertion-ordered catalog. -/
def lookupConfig (modelConfigs : List (String × ModelConfig)) (name : String) :
    Option ModelConfig :=
  (modelConfigs.find? (fun entry => entry.1 == name)).map (fun entry => entry.2)

/-- `AiderOrchestrator.selectOptimalModel`: first catalog hit in the
preference order for the complexity tier, else the first configured model
(`Object.values(...)[0]`), else the thrown `No AI models configured` error
(modelled as `Except.error`). -/
def selectOptimalModel (modelConfigs : List (String × ModelConfig))
    (complexity : TaskComplexity) : Except String ModelConfig :=
  match (modelPreferences complexity).findSome?
      (fun modelName => lookupConfig modelConfigs modelName) with
  | some config => .ok config
  | none =>
    match modelConfigs with
    | [] => .error "No AI models configured"
    | entry :: _ => .ok entry.2

/-- `AiderOrchestrator.buildAiderCommand`, in the push order of the source. -/
def buildAiderCommand (instruction : String) (context : AiderContext)
    (modelConfig : ModelConfig) : List String :=
  ["aider", "--yes", "--verbose", "--stream", "--model", modelConfig.name]
    ++ (match modelConfig.provider with
        | .openai => ["--openai-api-key", modelConfig.apiKey]
        | .anthropic => ["--anthropic-api-key", modelConfig.apiKey]
        | .deepseek => ["--api-key", "deepseek=" ++ modelConfig.apiKey])
    ++ ["--message", instruction]
    ++ (if context.files.length > 0 then context.files else [])

/-- Outcome of the spawned subprocess as observed by the promise inside
`executeAiderCommand`: the `close` event with a possibly-null exit code and
the buffered stdout/stderr; the `error` event (spawn failure); or the
30-minute timeout firing while the process is still registered, with the
stdout buffered so far. -/
inductive ExecOutcome
  | exited (code : Option Int) (output : String) (stderr : String)
  | spawnError (message : String)
  | timedOut (buffered : String)
deriving DecidableEq, Repr

/-- The resolved value of `executeAiderCommand`'s promise. -/
structure CommandResult where
  exitCode : Int
  output : String
  stderr : String
deriving DecidableEq, Repr

/-- `AiderOrchestrator.executeAiderCommand`: resolves with `code || 0` and the
buffered streams on `close`; rejects with the spawn error on `error`; rejects
with the fixed message `Aider execution timed out` when the timeout fires.
The rejection carries no output: the locally buffered stdout is dropped. -/
def executeAiderCommand (outcome : ExecOutcome) : Except String CommandResult :=
  match outcome with
  | .exited code output stderr =>
    .ok { exitCode := code.getD 0, output := output, stderr := stderr }
  | .spawnError message => .error message
  | .timedOut _ => .error "Aider execution timed out"

/-- `AiderOrchestrator.estimateCost`: `output.length / 4 * costPerToken`. -/
def estimateCost (output : String) (modelConfig : ModelConfig) : ℚ :=
  let estimatedTokens : ℚ := (output.toList.length : ℚ) / 4
  estimatedTokens * modelConfig.costPerToken

/-- The three literal alternatives of the changed-file regex
`/(?:Modified|Created|Updated):\s+(.+)/`. -/
def changeTags : List (List Char) :=
  ["Modified:".toList, "Created:".toList, "Updated:".toList]

/-- Capture of `\s+(.+)` after a matched tag, with regex backtracking
semantics: the greedy whitespace run must leave at least one character for
the capture. -/
def tagCapture (rest : List Char) : Option (List Char) :=
  let ws := rest.takeWhile Char.isWhitespace
  let body := rest.drop ws.length
  if ws.isEmpty then none
  else if !body.isEmpty then some body
  else if 2 ≤ ws.length then some (ws.drop (ws.length - 1)) else none

/-- First match of `/(?:Modified|Created|Updated):\s+(.+)/` in one line,
scanning match positions left to right. -/
def lineMatch : List Char → Option (List Char)
  | [] => none
  | c :: cs =>
    match changeTags.findSome? (fun tag =>
        if tag.isPrefixOf (c :: cs) then tagCapture ((c :: cs).drop tag.length)
        else none) with
    | some capture => some capture
    | none => lineMatch cs

/-- `AiderOrchestrator.extractChangedFiles`: per line, the trimmed first
capture of the changed-file regex, in line order. -/
def extractChangedFiles (output : String) : List String :=
  (splitOnChar '\n' output.toList).filterMap
    (fun line => (lineMatch line).map (fun capture => String.mk (trimChars capture)))

/-- First match of `/Commit\s+([a-f0-9]{7,40})/i` over the whole output,
scanning match positions left to right.  The greedy hex run is cut at 40
characters and must reach 7. -/
def commitScan : List Char → Option String
  | [] => none
  | c :: cs =>
    let here :=
      if ciPrefix "commit".toList (c :: cs) then
        let rest := (c :: cs).drop 6
        let ws := rest.takeWhile Char.isWhitespace
        let hex := (rest.drop ws.length).takeWhile isHexDigitCI
        if 1 ≤ ws.length && 7 ≤ hex.length then some (String.mk (hex.take 40)) else none
      else none
    match here with
    | some sha => some sha
    | none => commitScan cs

/-- `AiderOrchestrator.extractCommitSha`. -/
def extractCommitSha (output : String) : Option String := commitScan output.toList

/-- `AiderOrchestrator.execute`.  Model selection happens before the `try`
block, so the empty-catalog throw escapes the method (`Except.error`); every
subprocess outcome inside the `try` yields an `AiderResult` (`Except.ok`):
a real result on `close`, a synthetic failure (with empty output and zero
cost) when the promise rejects.  `executionTime` is the abstracted `elapsed`
parameter. -/
def execute (modelConfigs : List (String × ModelConfig)) (instruction : String)
    (context : AiderContext) (outcome : ExecOutcome) (elapsed : ℚ) :
    Except String AiderResult :=
  match selectOptimalModel modelConfigs (analyzeTaskComplexity instruction) with
  | .error e => .error e
  | .ok modelConfig =>
    let _aiderCommand := buildAiderCommand instruction context modelConfig
    match executeAiderCommand outcome with
    | .ok result =>
      .ok {
        success := result.exitCode == 0
        filesChanged := extractChangedFiles result.output
        commitSha := extractCommitSha result.output
        errorMessage := if result.exitCode != 0 then some result.stderr else none
        output := result.output
        costUsed := estimateCost result.output modelConfig
        modelUsed := modelConfig.name
        executionTime := elapsed }
    | .error message =>
      .ok {
        success := false
        filesChanged := []
        commitSha := none
        errorMessage := some message
        output := ""
        costUsed := 0
        modelUsed := modelConfig.name
        executionTime := elapsed }

/-! ## `AiderResolver` (index resolver module) -/

/-- The priority-based base factor of `AiderResolver.estimateOperationCost`:
`high → 0.50`, `low → 0.10`, anything else (including absent) `→ 0.25`. -/
def basePriorityFactor : Option Priority → ℚ
  | some .high => 0.50
  | some .low => 0.10
  | _ => 0.25

/-- The instruction-length multiplier `Math.min(length / 1000, 2.0)`. -/
def lengthMultiplierOf (instruction : String) : ℚ :=
  min ((instruction.toList.length : ℚ) / 1000) 2.0

/-- The file-count multiplier `files ? Math.min(files.length / 10, 1.5) : 1.0`.
Note a present-but-empty list is truthy in JavaScript and yields `0`. -/
def fileMultiplierOf : Option (List String) → ℚ
  | some files => min ((files.length : ℚ) / 10) 1.5
  | none => 1.0

/-- `AiderResolver.estimateOperationCost`: product of the three factors. -/
def estimateOperationCost (instruction : AgentInstruction) : ℚ :=
  basePriorityFactor instruction.priority
    * lengthMultiplierOf instruction.instruction
    * fileMultiplierOf instruction.files

/-- `AiderResolver.executeAiderOperation` forwards only
`instruction.instruction` to the orchestrator; the parsed `model` override
field of the `AgentInstruction` is not consulted anywhere downstream. -/
def executeAiderOperation (modelConfigs : List (String × ModelConfig))
    (instruction : AgentInstruction) (context : AiderContext)
    (outcome : ExecOutcome) (elapsed : ℚ) : Except String AiderResult :=
  execute modelConfigs instruction.instruction context outcome elapsed

/-! ## `GitHubReporter` (github-reporter module) -/

/-- The `defaultSteps` canonical order of `generateProgressMarkdown`. -/
def defaultSteps : List String :=
  ["Analyzing request and repository context",
   "Selecting optimal AI model",
   "Executing code changes with Aider",
   "Running tests and validation",
   "Creating pull request with changes",
   "Reporting results and cost summary"]

/-- The checkbox rendered per status (the `switch` in both loops). -/
def statusCheckbox : ProgressStatus → String
  | .completed => "[x]"
  | .in_progress => "[⏳]"
  | .failed => "[❌]"
  | .pending => "[ ]"

/-- The icon rendered per status (the `switch` in both loops). -/
def statusIcon : ProgressStatus → String
  | .completed => "✅"
  | .in_progress => "⚡"
  | .failed => "❌"
  | .pending => "⏸️"

/-- One rendered step line `- checkbox icon name[ - message]\n`; the
`if (message)` truthiness test in the source also skips an empty string. -/
def stepEntryLine (stepName : String) (status : ProgressStatus)
    (message : Option String) : String :=
  "- " ++ statusCheckbox status ++ " " ++ statusIcon status ++ " " ++ stepName
    ++ (match message with
        | some m => if m == "" then "" else " - " ++ m
        | none => "")
    ++ "\n"

/-- `Map.prototype.get` over the insertion-ordered model of `progressSteps`. -/
def getStep (steps : List (String × ProgressUpdate)) (stepName : String) :
    Option ProgressUpdate :=
  (steps.find? (fun entry => entry.1 == stepName)).map (fun entry => entry.2)

/-- The body of the first loop of `generateProgressMarkdown`: a known step is
rendered from the mapping when present, with `pending` as the default
status. -/
def defaultStepLine (steps : List (String × ProgressUpdate)) (stepName : String) : String :=
  let step := getStep steps stepName
  stepEntryLine stepName ((step.map (fun s => s.status)).getD .pending)
    (step.bind (fun s => s.message))

/-- The body of the second loop of `generateProgressMarkdown`: an entry of the
mapping rendered verbatim. -/
def customStepLine (entry : String × ProgressUpdate) : String :=
  stepEntryLine entry.1 entry.2.status entry.2.message

/-- `GitHubReporter.generateProgressMarkdown`: header, the six known steps in
canonical order, then every mapping entry whose key is not a known step (in
mapping order), then the timestamp line and the footer.  The timestamp
(`new Date().toISOString()` in the source) is the explicit parameter. -/
def generateProgressMarkdown (steps : List (String × ProgressUpdate))
    (timestamp : String) : String :=
  let markdown := "🤖 **Aider Assistant** is working on your request...\n\n"
    ++ "**Progress:**\n"
  let afterDefaults := defaultSteps.foldl
    (fun md stepName => md ++ defaultStepLine steps stepName) markdown
  let afterCustom := steps.foldl
    (fun md entry => if defaultSteps.contains entry.1 then md else md ++ customStepLine entry)
    afterDefaults
  afterCustom ++ "\n*Last updated: " ++ timestamp ++ "*\n"
    ++ "\n> 💡 This comment will be updated with real-time progress and final results."

/-- `updateProgress`'s `progressSteps.set(progress.step, progress)` with
JavaScript `Map` semantics: replacing an existing key keeps its position, a
new key is appended, so keys stay in first-seen order. -/
def setProgressStep (steps : List (String × ProgressUpdate)) (update : ProgressUpdate) :
    List (String × ProgressUpdate) :=
  if steps.any (fun entry => entry.1 == update.step) then
    steps.map (fun entry => if entry.1 == update.step then (update.step, update) else entry)
  else steps ++ [(update.step, update)]

/-! ## Concrete fixtures used by the closed theorems -/

/-- A deepseek catalog entry, as in the repository's own test fixtures. -/
def deepseekConfig : ModelConfig :=
  { name := "deepseek", provider := .deepseek, apiKey := "test-deepseek-key",
    costPerToken := 0.0001, maxTokens := 8192, complexity := .simple }

/-- A claude-sonnet catalog entry, as in the repository's own test fixtures. -/
def claudeSonnetConfig : ModelConfig :=
  { name := "claude-sonnet", provider := .anthropic, apiKey := "test-anthropic-key",
    costPerToken := 0.003, maxTokens := 4096, complexity := .complex }

/-- Catalog with deepseek and claude-sonnet, in insertion order. -/
def twoModelCatalog : List (String × ModelConfig) :=
  [("deepseek", deepseekConfig), ("claude-sonnet", claudeSonnetConfig)]

/-- Catalog whose only entry is deepseek. -/
def deepseekOnlyCatalog : List (String × ModelConfig) := [("deepseek", deepseekConfig)]

/-- A minimal execution context. -/
def sampleContext : AiderContext :=
  { instruction := "Fix typo in README", files := [], workingDirectory := "/repo" }

/-- An instruction carrying an explicit model override that names a backend
present in `twoModelCatalog`. -/
def overrideInstruction : AgentInstruction :=
  { trigger := "@agent", instruction := "Fix typo in README", files := none,
    model := some "claude-sonnet", priority := some .medium }

/-- Short instruction fixture (no files). -/
def shortInstruction : AgentInstruction :=
  { trigger := "@agent", instruction := "Fix typo", files := none, model := none,
    priority := some .medium }

/-- Longer instruction fixture, same priority and files as `shortInstruction`. -/
def longInstruction : AgentInstruction :=
  { trigger := "@agent", instruction := "Fix typo in the documentation of the parsing layer",
    files := none, model := none, priority := some .medium }

/-- Fixture with one file. -/
def fewFilesInstruction : AgentInstruction :=
  { trigger := "@agent", instruction := "Fix typo", files := some ["a.ts"], model := none,
    priority := some .medium }

/-- Fixture with three files, same priority and instruction as
`fewFilesInstruction`. -/
def manyFilesInstruction : AgentInstruction :=
  { trigger := "@agent", instruction := "Fix typo", files := some ["a.ts", "b.ts", "c.ts"],
    model := none, priority := some .medium }

/-- Subprocess output containing the two example marker lines and one more
`Modified:` line. -/
def mixedOutput : String := "Modified: src/b.ts\nModified: src/a.ts\nCommit abc1234"

/-- Subprocess output consisting exactly of the two example marker lines. -/
def exampleOutput : String := "Modified: src/a.ts\nCommit abc1234"

/-! ## Helper lemmas -/

/-- String concatenation is associative. -/
theorem strAppendAssoc (a b c : String) : (a ++ b) ++ c = a ++ (b ++ c) := by
  apply String.ext
  simp [String.data_append, List.append_assoc]

/-- The empty string is a left identity for concatenation. -/
theorem strNilAppend (s : String) : "" ++ s = s := by
  apply String.ext
  simp [String.data_append]

/-- A `+=`-style accumulation fold equals the initial value followed by the
concatenation of the rendered pieces. -/
theorem foldl_append_eq (f : α → String) (l : List α) (init : String) :
    l.foldl (fun acc x => acc ++ f x) init = init ++ concatMap l f := by
  induction l generalizing init with
  | nil => simp [concatMap]
  | cons x xs ih =>
    simp only [List.foldl_cons, concatMap]
    rw [ih, ih ("" ++ f x)]
    rw [strNilAppend, strAppendAssoc]

/-- `concatMap` unfolds on a cons cell. -/
theorem concatMap_cons (f : α → String) (x : α) (xs : List α) :
    concatMap (x :: xs) f = f x ++ concatMap xs f := by
  simp only [concatMap, List.foldl_cons]
  rw [foldl_append_eq, strNilAppend]
  rfl

/-- An accumulation fold that skips elements satisfying `P` renders exactly
the `!P` filtration, in order. -/
theorem foldl_if_filter (P : α → Bool) (f : α → String) (l : List α) (init : String) :
    l.foldl (fun acc x => if P x then acc else acc ++ f x) init
      = init ++ concatMap (l.filter (fun x => !P x)) f := by
  induction l generalizing init with
  | nil => simp [concatMap]
  | cons x xs ih =>
    simp only [List.foldl_cons]
    by_cases h : P x = true
    · rw [if_pos h, ih]
      have hf : (List.filter (fun y => !P y) (x :: xs)) = List.filter (fun y => !P y) xs := by
        simp [List.filter_cons, h]
      rw [hf]
    · rw [if_neg h, ih]
      have hf : (List.filter (fun y => !P y) (x :: xs)) = x :: List.filter (fun y => !P y) xs := by
        simp [List.filter_cons, h]
      rw [hf, concatMap_cons, ← strAppendAssoc]

/-- With a non-empty catalog, `selectOptimalModel` always returns a model. -/
theorem selectOptimalModel_ok_of_ne_nil (modelConfigs : List (String × ModelConfig))
    (complexity : TaskComplexity) (h : modelConfigs ≠ []) :
    ∃ config, selectOptimalModel modelConfigs complexity = .ok config := by
  cases hf : (modelPreferences complexity).findSome?
      (fun modelName => lookupConfig modelConfigs modelName) with
  | some config => exact ⟨config, by simp [selectOptimalModel, hf]⟩
  | none =>
    cases modelConfigs with
    | nil => exact absurd rfl h
    | cons entry rest => exact ⟨entry.2, by simp [selectOptimalModel, hf]⟩

/-! ## Claim theorems -/

/-- C1 (code bug evidence): the instruction's explicit model override
`claude-sonnet` names a backend present in the catalog, yet the executed
backend is `deepseek`: `executeAiderOperation` forwards only the instruction
text and the selection runs purely on complexity, so the override is ignored. -/
theorem model_override_ignored :
    (lookupConfig twoModelCatalog "claude-sonnet").isSome = true ∧
    overrideInstruction.model = some "claude-sonnet" ∧
    (executeAiderOperation twoModelCatalog overrideInstruction sampleContext
        (.exited (some 0) "" "") 1).map (fun r => r.modelUsed) = .ok "deepseek" ∧
    "deepseek" ≠ "claude-sonnet" := by
  refine ⟨rfl, rfl, rfl, by decide⟩

/-- C4 (counterexample): the classifier maps `Update the user service` to
`simple` (the `update` simple-signal keyword fires before the length
fallback), not `medium` as claimed. -/
theorem classify_update_not_medium :
    analyzeTaskComplexity "Update the user service" = .simple ∧
    TaskComplexity.simple ≠ TaskComplexity.medium := by
  exact ⟨rfl, by decide⟩

/-- C4 (amended): the classifier returns `complex` for
`Refactor the entire architecture`, `simple` for `Fix typo`, and `simple`
for `Update the user service`. -/
theorem classify_examples :
    analyzeTaskComplexity "Refactor the entire architecture" = .complex ∧
    analyzeTaskComplexity "Fix typo" = .simple ∧
    analyzeTaskComplexity "Update the user service" = .simple :=
  ⟨rfl, rfl, rfl⟩

/-- C7: a high-priority keyword anywhere in the (lower-cased) original text
forces priority `high`, whatever low-priority keywords appear; when neither
keyword set matches, the priority defaults to `medium`. -/
theorem extractPriority_high_precedence (text : String) :
    (highPriorityWords.any (fun word => includesB (lowerStr text) word) = true →
      extractPriority text = .high) ∧
    (highPriorityWords.any (fun word => includesB (lowerStr text) word) = false →
      lowPriorityWords.any (fun word => includesB (lowerStr text) word) = false →
      extractPriority text = .medium) := by
  constructor
  · intro h
    simp [extractPriority, h]
  · intro h1 h2
    simp [extractPriority, h1, h2]

/-- Witness for C7 at the spec's own example: `@agent Simple but URGENT fix`
contains both a low keyword (`simple`) and a high keyword (`urgent`) and gets
priority `high`; a text with neither keyword set gets `medium`. -/
theorem extractPriority_witness :
    extractPriority "@agent Simple but URGENT fix" = .high ∧
    extractPriority "@agent Fix the build" = .medium :=
  ⟨(extractPriority_high_precedence "@agent Simple but URGENT fix").1 (by decide),
   (extractPriority_high_precedence "@agent Fix the build").2 (by decide) (by decide)⟩

/-- C10: an absent or empty allowed-users list admits every user; a non-empty
list admits exactly its members. -/
theorem validatePermissions_spec (user : String) :
    validatePermissions user none = true ∧
    validatePermissions user (some []) = true ∧
    (∀ users : List String, users ≠ [] →
      (validatePermissions user (some users) = true ↔ user ∈ users)) := by
  refine ⟨rfl, rfl, ?_⟩
  intro users h
  cases users with
  | nil => exact absurd rfl h
  | cons u us => simp [validatePermissions]

/-- Witness for C10 at concrete inputs. -/
theorem validatePermissions_witness :
    validatePermissions "alice" none = true ∧
    (validatePermissions "alice" (some ["alice", "bob"]) = true ↔
      "alice" ∈ ["alice", "bob"]) :=
  ⟨(validatePermissions_spec "alice").1,
   (validatePermissions_spec "alice").2.2 ["alice", "bob"] (by decide)⟩

/-- C9 (counterexample): an output that contains the lines
`Modified: src/a.ts` and `Commit abc1234` but also another `Modified:` line
yields `changedFiles = [src/b.ts, src/a.ts]`, not `[src/a.ts]` as the
universally quantified claim states. -/
theorem extractChangedFiles_not_singleton :
    (splitOnChar '\n' mixedOutput.toList).contains "Modified: src/a.ts".toList = true ∧
    (splitOnChar '\n' mixedOutput.toList).contains "Commit abc1234".toList = true ∧
    extractChangedFiles mixedOutput = ["src/b.ts", "src/a.ts"] ∧
    extractChangedFiles mixedOutput ≠ ["src/a.ts"] := by
  refine ⟨rfl, rfl, rfl, by decide⟩

/-- C9 (amended): for the subprocess output consisting of the lines
`Modified: src/a.ts` and `Commit abc1234`, the execution result has
`filesChanged = [src/a.ts]` and `commitSha = abc1234`. -/
theorem execute_extracts_example :
    (execute deepseekOnlyCatalog "Add retry logic" sampleContext
        (.exited (some 0) exampleOutput "") 1).map
      (fun r => (r.filesChanged, r.commitSha)) = .ok (["src/a.ts"], some "abc1234") :=
  rfl

/-- C2 (counterexample): when the timeout fires with `partial diff output`
already buffered from stdout, the returned result's raw output is the empty
string — the buffered output is not retained. -/
theorem timeout_discards_buffered_output :
    (execute deepseekOnlyCatalog "Add tests" sampleContext
        (.timedOut "partial diff output") 1).map (fun r => r.output) = .ok "" ∧
    ("partial diff output" : String) ≠ "" := by
  refine ⟨rfl, by decide⟩

/-- C2 (amended): with any non-empty catalog, a timed-out job yields a result
with `success = false`, the fixed error message `Aider execution timed out`,
and an empty `output` (the buffered partial output is discarded by the
promise rejection). -/
theorem execute_timeout_shape (modelConfigs : List (String × ModelConfig))
    (instruction : String) (context : AiderContext) (buffered : String) (elapsed : ℚ)
    (h : modelConfigs ≠ []) :
    ∃ r, execute modelConfigs instruction context (.timedOut buffered) elapsed = .ok r ∧
      r.success = false ∧
      r.errorMessage = some "Aider execution timed out" ∧
      r.output = "" := by
  obtain ⟨config, hc⟩ := selectOptimalModel_ok_of_ne_nil modelConfigs
    (analyzeTaskComplexity instruction) h
  refine ⟨{ success := false, filesChanged := [], commitSha := none,
            errorMessage := some "Aider execution timed out", output := "",
            costUsed := 0, modelUsed := config.name, executionTime := elapsed },
          ?_, rfl, rfl, rfl⟩
  simp [execute, hc, executeAiderCommand]

/-- Witness for C2 (amended) at a concrete catalog and buffered output. -/
theorem execute_timeout_witness :
    ∃ r, execute deepseekOnlyCatalog "Implement feature X" sampleContext
        (.timedOut "partial diff output") 2 = .ok r ∧
      r.success = false ∧
      r.errorMessage = some "Aider execution timed out" ∧
      r.output = "" :=
  execute_timeout_shape deepseekOnlyCatalog "Implement feature X" sampleContext
    "partial diff output" 2 (by decide)

/-- C3: with a non-empty catalog, `execute` always returns a result — a real
one on process exit (`success` iff exit code 0), a synthetic failure on spawn
error or timeout — and never propagates an error; with an empty catalog it
aborts with the `No AI models configured` error independently of the
subprocess outcome (the throw happens before any spawn). -/
theorem execute_total_and_failure_shapes (modelConfigs : List (String × ModelConfig))
    (instruction : String) (context : AiderContext) (outcome : ExecOutcome) (elapsed : ℚ) :
    (modelConfigs = [] → execute modelConfigs instruction context outcome elapsed
        = .error "No AI models configured") ∧
    (modelConfigs ≠ [] → ∃ r,
      execute modelConfigs instruction context outcome elapsed = .ok r ∧
      r.success = (match outcome with
        | .exited code _ _ => code.getD 0 == 0
        | .spawnError _ => false
        | .timedOut _ => false)) := by
  constructor
  · intro h
    subst h
    have hsel : selectOptimalModel [] (analyzeTaskComplexity instruction)
        = .error "No AI models configured" := by
      cases hc : analyzeTaskComplexity instruction <;> rfl
    simp [execute, hsel]
  · intro h
    obtain ⟨config, hc⟩ := selectOptimalModel_ok_of_ne_nil modelConfigs
      (analyzeTaskComplexity instruction) h
    cases outcome with
    | exited code out err =>
      refine ⟨{ success := code.getD 0 == 0, filesChanged := extractChangedFiles out,
                commitSha := extractCommitSha out,
                errorMessage := if code.getD 0 != 0 then some err else none,
                output := out, costUsed := estimateCost out config,
                modelUsed := config.name, executionTime := elapsed }, ?_, rfl⟩
      simp [execute, hc, executeAiderCommand]
    | spawnError message =>
      refine ⟨{ success := false, filesChanged := [], commitSha := none,
                errorMessage := some message, output := "", costUsed := 0,
                modelUsed := config.name, executionTime := elapsed }, ?_, rfl⟩
      simp [execute, hc, executeAiderCommand]
    | timedOut buffered =>
      refine ⟨{ success := false, filesChanged := [], commitSha := none,
                errorMessage := some "Aider execution timed out", output := "",
                costUsed := 0, modelUsed := config.name, executionTime := elapsed }, ?_, rfl⟩
      simp [execute, hc, executeAiderCommand]

/-- Witness for C3 at a concrete catalog and a spawn-error outcome. -/
theorem execute_total_witness :
    ∃ r, execute deepseekOnlyCatalog "Fix typo" sampleContext
        (.spawnError "spawn aider ENOENT") 1 = .ok r ∧
      r.success = false :=
  (execute_total_and_failure_shapes deepseekOnlyCatalog "Fix typo" sampleContext
    (.spawnError "spawn aider ENOENT") 1).2 (by decide)

/-- C6: `selectOptimalModel` fails (with the `No AI models configured` error)
exactly on the empty catalog, and on a non-empty catalog containing none of
the preferred names for the tier it returns the first catalog entry. -/
theorem selectOptimalModel_empty_iff_and_fallback (complexity : TaskComplexity)
    (modelConfigs : List (String × ModelConfig)) :
    (selectOptimalModel modelConfigs complexity = .error "No AI models configured" ↔
      modelConfigs = []) ∧
    (∀ entry rest, modelConfigs = entry :: rest →
      (∀ name ∈ modelPreferences complexity, lookupConfig modelConfigs name = none) →
      selectOptimalModel modelConfigs complexity = .ok entry.2) := by
  constructor
  · constructor
    · intro h
      cases hm : modelConfigs with
      | nil => rfl
      | cons entry rest =>
        rw [hm] at h
        exfalso
        obtain ⟨config, hc⟩ := selectOptimalModel_ok_of_ne_nil (entry :: rest) complexity
          (by simp)
        rw [hc] at h
        exact Except.noConfusion h
    · intro h
      subst h
      cases complexity <;> rfl
  · intro entry rest hm hnone
    subst hm
    have hf : (modelPreferences complexity).findSome?
        (fun modelName => lookupConfig (entry :: rest) modelName) = none :=
      List.findSome?_eq_none_iff.mpr hnone
    simp [selectOptimalModel, hf]

/-- Witness for C6 at the spec's own example: a catalog whose only entry is
`deepseek` and tier `complex` (whose preference list does not mention
`deepseek`) falls back to `deepseek`; the empty catalog fails. -/
theorem selectOptimalModel_fallback_witness :
    selectOptimalModel deepseekOnlyCatalog .complex = .ok deepseekConfig ∧
    selectOptimalModel [] .complex = .error "No AI models configured" :=
  ⟨(selectOptimalModel_empty_iff_and_fallback .complex deepseekOnlyCatalog).2
      ("deepseek", deepseekConfig) [] rfl (by decide),
   ((selectOptimalModel_empty_iff_and_fallback .complex []).1).mpr rfl⟩

/-- The base factor is nonnegative. -/
theorem basePriorityFactor_nonneg (p : Option Priority) : 0 ≤ basePriorityFactor p := by
  rcases p with _ | p
  · norm_num [basePriorityFactor]
  · cases p <;> norm_num [basePriorityFactor]

/-- The base factor is at most `0.50`. -/
theorem basePriorityFactor_le_half (p : Option Priority) : basePriorityFactor p ≤ 0.50 := by
  rcases p with _ | p
  · norm_num [basePriorityFactor]
  · cases p <;> norm_num [basePriorityFactor]

/-- The length multiplier is nonnegative. -/
theorem lengthMultiplierOf_nonneg (s : String) : 0 ≤ lengthMultiplierOf s :=
  le_min (by positivity) (by norm_num)

/-- The length multiplier is capped at `2.0`. -/
theorem lengthMultiplierOf_le_two (s : String) : lengthMultiplierOf s ≤ 2.0 :=
  min_le_right _ _

/-- The file multiplier is nonnegative. -/
theorem fileMultiplierOf_nonneg (files : Option (List String)) : 0 ≤ fileMultiplierOf files := by
  rcases files with _ | fs
  · norm_num [fileMultiplierOf]
  · exact le_min (by positivity) (by norm_num)

/-- The file multiplier is at most `1.5`. -/
theorem fileMultiplierOf_le (files : Option (List String)) : fileMultiplierOf files ≤ 1.5 := by
  rcases files with _ | fs
  · norm_num [fileMultiplierOf]
  · exact min_le_right _ _

/-- C5: the pre-flight cost estimate is monotone in instruction length with
priority and files fixed, monotone in file count with priority and
instruction fixed, and bounded by `0.50 × 2.0 × 1.5`. -/
theorem estimateOperationCost_monotone_and_bounded :
    (∀ i₁ i₂ : AgentInstruction, i₁.priority = i₂.priority → i₁.files = i₂.files →
        i₁.instruction.toList.length ≤ i₂.instruction.toList.length →
        estimateOperationCost i₁ ≤ estimateOperationCost i₂) ∧
    (∀ i₁ i₂ : AgentInstruction, i₁.priority = i₂.priority →
        i₁.instruction = i₂.instruction →
        ∀ files₁ files₂, i₁.files = some files₁ → i₂.files = some files₂ →
        files₁.length ≤ files₂.length →
        estimateOperationCost i₁ ≤ estimateOperationCost i₂) ∧
    (∀ i : AgentInstruction, estimateOperationCost i ≤ 0.50 * 2.0 * 1.5) := by
  refine ⟨?_, ?_, ?_⟩
  · intro i₁ i₂ hp hf hlen
    unfold estimateOperationCost
    rw [hp, hf]
    have hmin : lengthMultiplierOf i₁.instruction ≤ lengthMultiplierOf i₂.instruction := by
      unfold lengthMultiplierOf
      gcongr
    exact mul_le_mul_of_nonneg_right
      (mul_le_mul_of_nonneg_left hmin (basePriorityFactor_nonneg _))
      (fileMultiplierOf_nonneg _)
  · intro i₁ i₂ hp hi files₁ files₂ hf₁ hf₂ hcount
    unfold estimateOperationCost
    rw [hp, hi, hf₁, hf₂]
    have hmin : fileMultiplierOf (some files₁) ≤ fileMultiplierOf (some files₂) := by
      show min ((files₁.length : ℚ) / 10) 1.5 ≤ min ((files₂.length : ℚ) / 10) 1.5
      gcongr
    exact mul_le_mul_of_nonneg_left hmin
      (mul_nonneg (basePriorityFactor_nonneg _) (lengthMultiplierOf_nonneg _))
  · intro i
    unfold estimateOperationCost
    have h1 : basePriorityFactor i.priority * lengthMultiplierOf i.instruction ≤ 0.50 * 2.0 :=
      mul_le_mul (basePriorityFactor_le_half _) (lengthMultiplierOf_le_two _)
        (lengthMultiplierOf_nonneg _) (by norm_num)
    exact mul_le_mul h1 (fileMultiplierOf_le _) (fileMultiplierOf_nonneg _) (by norm_num)

/-- Witness for C5 at concrete instructions. -/
theorem estimateOperationCost_witness :
    estimateOperationCost shortInstruction ≤ estimateOperationCost longInstruction ∧
    estimateOperationCost fewFilesInstruction ≤ estimateOperationCost manyFilesInstruction ∧
    estimateOperationCost shortInstruction ≤ 0.50 * 2.0 * 1.5 :=
  ⟨estimateOperationCost_monotone_and_bounded.1 shortInstruction longInstruction rfl rfl
      (by decide),
   estimateOperationCost_monotone_and_bounded.2.1 fewFilesInstruction manyFilesInstruction
      rfl rfl ["a.ts"] ["a.ts", "b.ts", "c.ts"] rfl rfl (by decide),
   estimateOperationCost_monotone_and_bounded.2.2 shortInstruction⟩

/-- Replacing the value at an existing key leaves the key sequence unchanged. -/
theorem map_set_fst (steps : List (String × ProgressUpdate)) (update : ProgressUpdate) :
    (steps.map
        (fun entry => if entry.1 == update.step then (update.step, update) else entry)).map
      Prod.fst = steps.map Prod.fst := by
  induction steps with
  | nil => rfl
  | cons entry rest ih =>
    simp only [List.map_cons]
    by_cases he : (entry.1 == update.step) = true
    · rw [if_pos he, ih]
      have hk : update.step = entry.1 := (eq_of_beq he).symm
      exact congrArg (fun x => x :: rest.map Prod.fst) hk
    · rw [if_neg he, ih]

/-- The rendered document factors as header, the known steps in canonical
order, the unrecognized mapping entries in mapping order, and the
timestamped footer. -/
theorem generateProgressMarkdown_eq (steps : List (String × ProgressUpdate))
    (timestamp : String) :
    generateProgressMarkdown steps timestamp =
      ("🤖 **Aider Assistant** is working on your request...\n\n" ++ "**Progress:**\n")
        ++ (concatMap defaultSteps (defaultStepLine steps)
        ++ (concatMap (steps.filter (fun entry => !(defaultSteps.contains entry.1)))
              customStepLine
        ++ ("\n*Last updated: "
        ++ (timestamp
        ++ ("*\n"
        ++ "\n> 💡 This comment will be updated with real-time progress and final results."))))) := by
  simp only [generateProgressMarkdown]
  rw [foldl_append_eq (defaultStepLine steps) defaultSteps]
  rw [foldl_if_filter (fun entry => defaultSteps.contains entry.1) customStepLine steps]
  simp only [strAppendAssoc]

/-- C8: re-rendering from an unchanged step mapping is byte-identical apart
from the embedded timestamp (the document factors as `pre ++ timestamp ++
post` with `pre`, `post` depending only on the mapping); the document lists
the known steps in the fixed canonical order followed by the unrecognized
keys in mapping order; and the mapping update keeps keys in first-seen order
(replacing preserves the key sequence, a new key appends). -/
theorem generateProgressMarkdown_deterministic :
    (∀ steps : List (String × ProgressUpdate), ∃ pre post : String, ∀ timestamp : String,
        generateProgressMarkdown steps timestamp = pre ++ (timestamp ++ post)) ∧
    (∀ (steps : List (String × ProgressUpdate)) (timestamp : String),
        generateProgressMarkdown steps timestamp =
          ("🤖 **Aider Assistant** is working on your request...\n\n" ++ "**Progress:**\n")
            ++ (concatMap defaultSteps (defaultStepLine steps)
            ++ (concatMap (steps.filter (fun entry => !(defaultSteps.contains entry.1)))
                  customStepLine
            ++ ("\n*Last updated: "
            ++ (timestamp
            ++ ("*\n"
            ++ "\n> 💡 This comment will be updated with real-time progress and final results.")))))) ∧
    (∀ (steps : List (String × ProgressUpdate)) (update : ProgressUpdate),
        (setProgressStep steps update).map Prod.fst =
          if steps.any (fun entry => entry.1 == update.step) then steps.map Prod.fst
          else steps.map Prod.fst ++ [update.step]) := by
  refine ⟨?_, generateProgressMarkdown_eq, ?_⟩
  · intro steps
    refine ⟨("🤖 **Aider Assistant** is working on your request...\n\n" ++ "**Progress:**\n")
        ++ (concatMap defaultSteps (defaultStepLine steps)
        ++ (concatMap (steps.filter (fun entry => !(defaultSteps.contains entry.1)))
              customStepLine
        ++ "\n*Last updated: ")),
      "*\n" ++ "\n> 💡 This comment will be updated with real-time progress and final results.",
      ?_⟩
    intro timestamp
    rw [generateProgressMarkdown_eq]
    simp only [strAppendAssoc]
  · intro steps update
    by_cases h : steps.any (fun entry => entry.1 == update.step) = true
    · rw [if_pos h]
      simp only [setProgressStep, if_pos h]
      exact map_set_fst steps update
    · rw [if_neg h]
      simp only [setProgressStep, if_neg h]
      simp [List.map_append]
